import Mathlib

/-!
Shallow embedding of `cookiecutter/context.py` (version-2 cookiecutter
context processing): the Variable model, the requirement checker, the
type registry (deserializers), and the sequential skip/jump resolution
engine `load_context`.

External collaborators (the jinja2 expression evaluator, the click
terminal prompt, and the `re` regex engine) are modelled as explicit
boundary parameters, mirroring the specification's boundary treatment.
Python dynamic values are modelled by the inductive `PyValue`; Python
floats are modelled by rationals (no NaN/Inf in the modelled domain),
and the textual rendering of containers/floats by `str()` is abstracted
(only its stability under `str` on strings matters to any theorem here).
-/

namespace Cookiecutter

/-- Model of a dynamically typed Python value as it appears in a
cookiecutter context document: None, bool, int, float, str, list, dict. -/
inductive PyValue where
  | none : PyValue
  | bool : Bool → PyValue
  | int : Int → PyValue
  | float : Rat → PyValue
  | str : String → PyValue
  | list : List PyValue → PyValue
  | dict : List (String × PyValue) → PyValue

/-- Python truthiness `bool(v)`: None/0/0.0/empty are falsy. -/
def pyTruthy : PyValue → Bool
  | .none => false
  | .bool b => b
  | .int n => decide (n ≠ 0)
  | .float q => decide (q ≠ 0)
  | .str s => decide (s ≠ "")
  | .list xs => !xs.isEmpty
  | .dict xs => !xs.isEmpty

/-- Numeric view used by Python `==` across bool/int/float. -/
def pyToRat? : PyValue → Option Rat
  | .bool b => some (if b then 1 else 0)
  | .int n => some (n : Rat)
  | .float q => some q
  | _ => Option.none

mutual

/-- Structural equality on `PyValue` (used as the fallback of `pyEq`). -/
def pyBeq : PyValue → PyValue → Bool
  | .none, .none => true
  | .bool a, .bool b => a == b
  | .int a, .int b => a == b
  | .float a, .float b => a == b
  | .str a, .str b => a == b
  | .list a, .list b => pyBeqList a b
  | .dict a, .dict b => pyBeqDict a b
  | _, _ => false

/-- Elementwise `pyBeq` on lists. -/
def pyBeqList : List PyValue → List PyValue → Bool
  | [], [] => true
  | a :: l, b :: m => pyBeq a b && pyBeqList l m
  | _, _ => false

/-- Pairwise `pyBeq` on dict entries. -/
def pyBeqDict : List (String × PyValue) → List (String × PyValue) → Bool
  | [], [] => true
  | a :: l, b :: m => (a.1 == b.1 && pyBeq a.2 b.2) && pyBeqDict l m
  | _, _ => false

end

/-- Python `==` on values (scalars compared numerically across
bool/int/float as in Python; containers compared structurally, an
adequate model for the scalar choice lists the code compares). -/
def pyEq (a b : PyValue) : Bool :=
  match pyToRat? a, pyToRat? b with
  | some x, some y => decide (x = y)
  | _, _ => pyBeq a b

/-- Python `x in xs` membership via `==`. -/
def pyMem (a : PyValue) (xs : List PyValue) : Bool :=
  xs.any (fun b => pyEq a b)

/-- Python `str(v)`.  The exact textual form of numbers and containers is
abstracted (deterministic but unspecified); strings pass through, bools
and None print as in Python. -/
def pyStrFn : PyValue → String
  | .none => "None"
  | .bool true => "True"
  | .bool false => "False"
  | .int n => toString n
  | .float q => toString q
  | .str s => s
  | .list _ => "<list>"
  | .dict _ => "<dict>"

/-- Truncation of a rational toward zero, as Python `int(float)`. -/
def ratTrunc (q : Rat) : Int :=
  let n : Nat := q.num.natAbs / q.den
  if q.num < 0 then -(n : Int) else (n : Int)

/-- Splitting a character list on a separator, as Python `str.split(c)`
(an empty input yields one empty part). -/
def splitOnChar (sep : Char) : List Char → List (List Char)
  | [] => [[]]
  | x :: rest =>
    match splitOnChar sep rest with
    | [] => [[]]
    | g :: gs => if x = sep then [] :: g :: gs else (x :: g) :: gs

/-- The whitespace stripped by Python `str.strip()` (ASCII range). -/
def wsChars : List Char := [' ', '\t', '\n', '\r', '\x0b', '\x0c']

/-- Python `str.strip(chars)`: remove the given characters from both
ends. -/
def stripChars (cs : List Char) (l : List Char) : List Char :=
  (((l.dropWhile (fun c => cs.contains c)).reverse.dropWhile
    (fun c => cs.contains c)).reverse)

/-- Python `str.strip()` with no argument: strip whitespace. -/
def stripCharsWs (l : List Char) : List Char :=
  stripChars wsChars l

/-- A non-empty all-digit character list read as a decimal number. -/
def digitsToNat? (l : List Char) : Option Nat :=
  if l ≠ [] ∧ l.all Char.isDigit = true then
    some (l.foldl (fun a c => a * 10 + (c.toNat - 48)) 0)
  else
    Option.none

/-- Python `int(str)` on plain decimal literals (optional sign,
surrounding whitespace). -/
def parseIntStr (s : String) : Option Int :=
  match stripCharsWs s.toList with
  | '-' :: ds => (digitsToNat? ds).map (fun n => -(n : Int))
  | '+' :: ds => (digitsToNat? ds).map (fun n => (n : Int))
  | ds => (digitsToNat? ds).map (fun n => (n : Int))

/-- Python `int(v)` as a partial function (TypeError/ValueError ↦ none). -/
def pyInt : PyValue → Option Int
  | .bool b => some (if b then 1 else 0)
  | .int n => some n
  | .float q => some (ratTrunc q)
  | .str s => parseIntStr s
  | _ => Option.none

/-- Decimal fraction-literal parser backing the `float(str)` model:
`"d"`, `"d.d"`, `"d."`, `".d"` (no exponents/inf/nan in the modelled
domain). -/
def parseFloatBody (t : List Char) : Option Rat :=
  match splitOnChar '.' t with
  | [a] => (digitsToNat? a).map (fun n => (n : Rat))
  | [a, b] =>
    if a = [] ∧ b = [] then Option.none
    else
      (if a = [] then some 0 else digitsToNat? a).bind fun ai =>
      (if b = [] then some 0 else digitsToNat? b).map fun bi =>
        (ai : Rat) + (bi : Rat) / ((10 : Rat) ^ b.length)
  | _ => Option.none

/-- Python `float(str)` on plain decimal literals. -/
def parseFloatStr (s : String) : Option Rat :=
  match stripCharsWs s.toList with
  | '-' :: ds => (parseFloatBody ds).map Neg.neg
  | '+' :: ds => parseFloatBody ds
  | ds => parseFloatBody ds

/-- Python `float(v)` as a partial function. -/
def pyFloat : PyValue → Option Rat
  | .bool b => some (if b then 1 else 0)
  | .int n => some (n : Rat)
  | .float q => some q
  | .str s => parseFloatStr s
  | _ => Option.none

/-- A hexadecimal digit (either case), as accepted by `int(hex, 16)`
inside `uuid.UUID`. -/
def isHexDigitChar (c : Char) : Bool :=
  decide ((48 ≤ c.toNat ∧ c.toNat ≤ 57) ∨ (97 ≤ c.toNat ∧ c.toNat ≤ 102) ∨
    (65 ≤ c.toNat ∧ c.toNat ≤ 70))

/-- A lowercase hexadecimal digit, the alphabet of `UUID.hex` output. -/
def isLowerHexChar (c : Char) : Bool :=
  decide ((48 ≤ c.toNat ∧ c.toNat ≤ 57) ∨ (97 ≤ c.toNat ∧ c.toNat ≤ 102))

/-- Lowercasing of a hex digit, as effected by the `'%032x'` rendering of
`UUID.hex` (only the digits A-F are ever remapped on inputs that pass the
hex check). -/
def hexLowerChar (c : Char) : Char :=
  if c.toNat = 65 then 'a'
  else if c.toNat = 66 then 'b'
  else if c.toNat = 67 then 'c'
  else if c.toNat = 68 then 'd'
  else if c.toNat = 69 then 'e'
  else if c.toNat = 70 then 'f'
  else c

/-- Python `str.replace(pat, "")` for a non-empty pattern `p :: ps`:
leftmost non-overlapping occurrence removal. -/
def replaceSub (p : Char) (ps : List Char) : List Char → List Char
  | [] => []
  | c :: rest =>
    if (p :: ps).isPrefixOf (c :: rest) then
      replaceSub p ps (rest.drop ps.length)
    else
      c :: replaceSub p ps rest
termination_by l => l.length
decreasing_by
  · simp only [List.length_drop, List.length_cons]; omega
  · simp only [List.length_cons]; omega

/-- The string normalization performed by `uuid.UUID(hex=s)`: drop
`urn:` and `uuid:` markers, strip surrounding braces, remove dashes. -/
def uuidStripped (s : String) : List Char :=
  (stripChars ['\x7b', '\x7d']
      (replaceSub 'u' ['u', 'i', 'd', ':']
        (replaceSub 'u' ['r', 'n', ':'] s.toList))).filter
    (fun c => c ≠ '-')

/-- `uuid.UUID(s).hex` (as used by `deserialize_uuid` via `click.UUID`):
normalize, require exactly 32 hex digits, return them lowercased. -/
def uuidHexStr (s : String) : Option String :=
  if (uuidStripped s).length = 32 ∧ (uuidStripped s).all isHexDigitChar = true then
    some (String.mk ((uuidStripped s).map hexLowerChar))
  else
    Option.none

/-- `deserialize_string`: `str(value)`. -/
def deserialize_string (value : PyValue) : Option PyValue :=
  some (.str (pyStrFn value))

/-- `deserialize_boolean`: `bool(value)`. -/
def deserialize_boolean (value : PyValue) : Option PyValue :=
  some (.bool (pyTruthy value))

/-- `deserialize_yes_no`: `bool(value)`. -/
def deserialize_yes_no (value : PyValue) : Option PyValue :=
  some (.bool (pyTruthy value))

/-- `deserialize_int`: `int(value)`. -/
def deserialize_int (value : PyValue) : Option PyValue :=
  (pyInt value).map .int

/-- `deserialize_float`: `float(value)`. -/
def deserialize_float (value : PyValue) : Option PyValue :=
  (pyFloat value).map .float

/-- `deserialize_uuid`: `click.UUID(value).hex` (defined on UUID-shaped
strings). -/
def deserialize_uuid (value : PyValue) : Option PyValue :=
  match value with
  | .str s => (uuidHexStr s).map .str
  | _ => Option.none

/-- `deserialize_json`: identity passthrough. -/
def deserialize_json (value : PyValue) : Option PyValue :=
  some value

/-- The `DESERIALIZERS` lookup table keyed by type tag. -/
def DESERIALIZERS : String → Option (PyValue → Option PyValue)
  | "string" => some deserialize_string
  | "boolean" => some deserialize_boolean
  | "int" => some deserialize_int
  | "float" => some deserialize_float
  | "uuid" => some deserialize_uuid
  | "json" => some deserialize_json
  | "yes_no" => some deserialize_yes_no
  | _ => Option.none

/-! ### Requirement checker (`validate_requirement`) -/

/-- `packaging.version.parse` restricted to plain release versions:
dot-separated decimal segments. -/
def parseVersion (l : List Char) : Option (List Nat) :=
  (splitOnChar '.' l).mapM digitsToNat?

/-- The release-tuple comparison key of `packaging.version`: trailing
zero segments are insignificant. -/
def releaseKey (l : List Nat) : List Nat :=
  (l.reverse.dropWhile (fun n => n = 0)).reverse

/-- Lexicographic comparison of release keys (tuple comparison in
Python). -/
def listCmp : List Nat → List Nat → Ordering
  | [], [] => .eq
  | [], _ :: _ => .lt
  | _ :: _, [] => .gt
  | a :: l, b :: m =>
    if a < b then .lt else if b < a then .gt else listCmp l m

/-- The comparator keys of `op_mapping`. -/
def opKeys : List (List Char) :=
  [['=', '='], ['<'], ['<', '='], ['>'], ['>', '=']]

/-- Apply one comparator of `op_mapping` to the ordering of the two
parsed versions. -/
def applyOp (op : List Char) (o : Ordering) : Bool :=
  match op with
  | ['=', '='] => o = .eq
  | ['<'] => o = .lt
  | ['<', '='] => o ≠ .gt
  | ['>'] => o = .gt
  | ['>', '='] => o ≠ .lt
  | _ => false

/-- The comparator token and remainder of one requirement clause
(`req_str[:2] in op_mapping` tried before `req_str[:1]`, absence of a
comparator implying equality). -/
def parseClause (req_str : List Char) : List Char × List Char :=
  if opKeys.contains (req_str.take 2) then (req_str.take 2, req_str.drop 2)
  else if opKeys.contains (req_str.take 1) then (req_str.take 1, req_str.drop 1)
  else (['=', '='], req_str)

/-- `validate_single_req`: read the leading comparator token, then
compare parsed versions.  `none` models the exception raised on an
unparsable version string. -/
def validate_single_req (pkg_version req_str : List Char) : Option Bool :=
  (parseVersion pkg_version).bind fun a =>
    (parseVersion (parseClause req_str).2).map fun b =>
      applyOp (parseClause req_str).1 (listCmp (releaseKey a) (releaseKey b))

/-- The short-circuiting `all(map(validate_single_req, req_list))`. -/
def validateClauses (pkg_version : List Char) : List (List Char) → Option Bool
  | [] => some true
  | r :: rs =>
    (validate_single_req pkg_version r).bind fun b =>
      if b then validateClauses pkg_version rs else some false

/-- `validate_requirement`: split the requirement on commas, strip each
clause, and require every clause to hold. -/
def validate_requirement (req_long_str pkg_version : String) : Option Bool :=
  validateClauses pkg_version.toList
    ((splitOnChar ',' req_long_str.toList).map stripCharsWs)

/-! ### Variable model -/

/-- `REGEX_COMPILE_FLAGS`: flag name → numeric `re` flag.  The key
`"mulitline"` reproduces the source table verbatim (the source spells it
that way, both in the table and in its docstring). -/
def REGEX_COMPILE_FLAGS : String → Option Nat
  | "ascii" => some 256
  | "debug" => some 128
  | "ignorecase" => some 2
  | "locale" => some 4
  | "mulitline" => some 8
  | "dotall" => some 16
  | "verbose" => some 64
  | _ => Option.none

/-- A compiled regular expression, `re.compile(pattern, flags)` being an
external boundary: only the pattern and the accumulated flag word are
observable to this module. -/
structure CompiledRegex where
  pattern : String
  flags : Nat

/-- The distinct exceptions `Variable.__init__` can raise:
`choiceMismatch` and `validationCompileError` and `validationTypeError`
are the three `ValueError`s of the source; `keyError` is the uncaught
`KeyError` from `REGEX_COMPILE_FLAGS[vflag]` on an unknown flag name. -/
inductive VarErr where
  | choiceMismatch : VarErr
  | keyError : String → VarErr
  | validationCompileError : VarErr
  | validationTypeError : VarErr
deriving DecidableEq

/-- The keyword arguments (`**info`) of `Variable.__init__`; `none`
means the key is absent from `info`. -/
structure VarInfo where
  description : Option String := Option.none
  prompt : Option String := Option.none
  hide_input : Option Bool := Option.none
  default : Option PyValue := Option.none
  skip_if : Option String := Option.none
  do_if : Option String := Option.none
  if_yes_skip_to : Option String := Option.none
  if_no_skip_to : Option String := Option.none
  prompt_user : Option Bool := Option.none
  choices : Option (List PyValue) := Option.none
  validation : Option String := Option.none
  validation_msg : Option String := Option.none
  validation_flags : Option (List String) := Option.none

/-- A constructed `Variable` (the fields the engine reads). -/
structure Variable where
  name : String
  var_type : String
  prompt : String
  hide_input : Bool
  default : PyValue
  skip_if : String
  do_if : String
  if_yes_skip_to : Option String
  if_no_skip_to : Option String
  prompt_user : Bool
  choices : List PyValue
  validation : Option String
  validate : Option CompiledRegex
  validation_msg : Option String

/-- `DEFAULT_PROMPT.format(variable=self)`. -/
def defaultPromptText (name : String) : String :=
  "Please enter a value for \"" ++ name ++ "\""

/-- The `for vflag in validation_flag_names: flags |= TABLE[vflag]`
loop: OR the numeric flags left to right, raising `KeyError` at the
first unknown name. -/
def collectFlags (acc : Nat) : List String → Except VarErr Nat
  | [] => .ok acc
  | f :: fs =>
    match REGEX_COMPILE_FLAGS f with
    | Option.none => .error (.keyError f)
    | some n => collectFlags (acc ||| n) fs

/-- `Variable.__init__`, with `re.compile` supplied as the boundary
`recompile` (returning `none` exactly when the Python call raises
`re.error`). -/
def mkVariable (recompile : String → Nat → Option CompiledRegex)
    (name type : String) (info : VarInfo) : Except VarErr Variable :=
  let prompt := info.prompt.getD (defaultPromptText name)
  let hide_input := info.hide_input.getD false
  let default := info.default.getD .none
  let skip_if := info.skip_if.getD ""
  let do_if := info.do_if.getD ""
  let prompt_user := if name.startsWith "_" then false else info.prompt_user.getD true
  let choices := info.choices.getD []
  if (!choices.isEmpty) && info.default.isSome && (!pyMem default choices) then
    .error .choiceMismatch
  else
    let base : Variable :=
      { name := name, var_type := type, prompt := prompt,
        hide_input := hide_input, default := default, skip_if := skip_if,
        do_if := do_if, if_yes_skip_to := info.if_yes_skip_to,
        if_no_skip_to := info.if_no_skip_to, prompt_user := prompt_user,
        choices := choices, validation := info.validation,
        validate := Option.none, validation_msg := Option.none }
    match info.validation with
    | some v =>
      if v ≠ "" then
        match collectFlags 0 (info.validation_flags.getD []) with
        | .error e => .error e
        | .ok flags =>
          match recompile v flags with
          | Option.none => .error .validationCompileError
          | some rgx =>
            if type ≠ "string" then .error .validationTypeError
            else
              .ok { base with
                    validate := some rgx
                    validation_msg := info.validation_msg }
      else .ok base
    | Option.none => .ok base

/-! ### Resolution engine (`load_context`) -/

/-- The ordered context mapping (Python `OrderedDict`). -/
abbrev Ctx := List (String × PyValue)

/-- External collaborators of the engine: the jinja2 renderer (an
expression and the current context), the per-type `click` prompt call
(variable, default, attempt index), and `re` pattern matching. -/
structure Boundaries where
  render : String → Ctx → String
  promptClick : Variable → PyValue → Nat → PyValue
  regexMatch : CompiledRegex → PyValue → Bool

/-- `OrderedDict` assignment `ctx[k] = v`: replace in place when the key
exists, append otherwise. -/
def ctxSet (ctx : Ctx) (k : String) (v : PyValue) : Ctx :=
  if (List.any ctx fun p => p.1 == k) then
    List.map (fun p => if p.1 == k then (k, v) else p) ctx
  else
    List.append ctx [(k, v)]

/-- The `while True` prompt/validate loop of `prompt_variable`, with
fuel bounding the number of solicitations (`none` models an operator
that never supplies an acceptable value). -/
def promptLoop (B : Boundaries) (v : Variable) : Nat → Nat → Option PyValue
  | _, 0 => Option.none
  | k, fuel + 1 =>
    let value := B.promptClick v v.default k
    match v.validate with
    | some rgx =>
      if B.regexMatch rgx value then some value
      else promptLoop B v (k + 1) fuel
    | Option.none => some value

/-- `prompt_variable`: solicit a value, re-prompting while the compiled
validation pattern (if any) rejects it. -/
def prompt_variable (B : Boundaries) (fuel : Nat) (v : Variable) : Option PyValue :=
  promptLoop B v 0 fuel

/-- Engine state: the accumulated context, the pending skip-to target
(`skip_to_variable_name`), and the names of variables for which the
interactive prompt boundary has been engaged (empty in Python's
`no_input` runs). -/
structure RState where
  context : Ctx
  skipTo : Option String
  prompted : List String

/-- Python truthiness of the optional string fields
(`if_yes_skip_to`, `skip_to_variable_name`, ...). -/
def truthyOptStr : Option String → Bool
  | Option.none => false
  | some s => s ≠ ""

/-- `value is True` (the Python identity test on the bool singleton). -/
def isPyTrue : PyValue → Bool
  | .bool true => true
  | _ => false

/-- `value is False`. -/
def isPyFalse : PyValue → Bool
  | .bool false => true
  | _ => false

/-- The in-place rendering of a string default
(`variable.default = jinja_render(variable.default)`). -/
def renderedVar (B : Boundaries) (ctx : Ctx) (v : Variable) : Variable :=
  match v.default with
  | .str s => { v with default := .str (B.render s ctx) }
  | _ => v

/-- The two trailing `if` statements updating
`skip_to_variable_name` from the just-stored value. -/
def nextSkipTo (v : Variable) (dv : PyValue) : Option String :=
  if truthyOptStr v.if_yes_skip_to && isPyTrue dv then v.if_yes_skip_to
  else if truthyOptStr v.if_no_skip_to && isPyFalse dv then v.if_no_skip_to
  else Option.none

/-- The value-acquisition/deserialize/store tail of one loop iteration
(reached once neither the pending target nor `skip_if`/`do_if` skipped
the variable). -/
def processVar (B : Boundaries) (no_input : Bool) (fuel : Nat)
    (st : RState) (v : Variable) : Option RState :=
  (if no_input || (!(renderedVar B st.context v).prompt_user) then
      some ((renderedVar B st.context v).default, st.prompted)
    else
      (prompt_variable B fuel (renderedVar B st.context v)).map
        (fun x => (x, st.prompted ++ [(renderedVar B st.context v).name]))).bind
    fun vp =>
      (DESERIALIZERS (renderedVar B st.context v).var_type).bind fun d =>
        (d vp.1).bind fun dv =>
          some { context := ctxSet st.context (renderedVar B st.context v).name dv
               , skipTo := nextSkipTo (renderedVar B st.context v) dv
               , prompted := vp.2 }

/-- One loop iteration after the pending-target gate: the `skip_if` and
`do_if` checks, then `processVar`. -/
def afterPending (B : Boundaries) (no_input : Bool) (fuel : Nat)
    (st : RState) (v : Variable) : Option RState :=
  if v.skip_if ≠ "" && (B.render v.skip_if st.context == "True") then some st
  else if v.do_if ≠ "" && (B.render v.do_if st.context == "False") then some st
  else processVar B no_input fuel st v

/-- One full loop iteration over one variable, including the
pending-target gate at the top. -/
def step (B : Boundaries) (no_input : Bool) (fuel : Nat)
    (st : RState) (v : Variable) : Option RState :=
  if (match st.skipTo with
      | some t => t ≠ "" && v.name ≠ t
      | Option.none => false) then some st
  else afterPending B no_input fuel { st with skipTo := Option.none } v

/-- The `for variable in CookiecutterTemplate(**json_object)` loop. -/
def resolveVars (B : Boundaries) (no_input : Bool) (fuel : Nat) :
    RState → List Variable → Option RState
  | st, [] => some st
  | st, v :: vs => (step B no_input fuel st v).bind fun st' =>
      resolveVars B no_input fuel st' vs

/-- The slice of the input document `load_context` consumes: the ordered
variable list and the two passthrough values
(`json_object.get('extensions')`, `json_object.get('jinja2_env_vars')`,
both `None` when absent). -/
structure Template where
  /-- `template["variables"]` (the keyword `variables` is reserved in
  Lean 4, hence the name). -/
  variableList : List Variable
  extensions : PyValue := .none
  jinja2_env_vars : PyValue := .none

/-- The result of a completed `load_context` run: the final context,
the prompt-engagement log, and whether the unmatched-skip-target warning
was emitted. -/
structure LoadResult where
  context : Ctx
  prompted : List String
  warned : Bool

/-- `load_context`: walk the variables, warn if a pending skip target
survives the walk, then copy the two passthrough keys into the context
unconditionally. -/
def load_context (B : Boundaries) (tmpl : Template) (no_input : Bool)
    (fuel : Nat) : Option LoadResult :=
  (resolveVars B no_input fuel
      { context := [], skipTo := Option.none, prompted := [] }
      tmpl.variableList).map fun st =>
    { context := ctxSet (ctxSet st.context "_extensions" tmpl.extensions)
        "_jinja2_env_vars" tmpl.jinja2_env_vars
    , prompted := st.prompted
    , warned := truthyOptStr st.skipTo }

/-! ### Concrete fixtures and projections used by witnesses -/

/-- The rendered form of a variable's default against a context (the
value read by step 5 after the in-place rendering of step 4). -/
def renderedDefault (B : Boundaries) (ctx : Ctx) (v : Variable) : PyValue :=
  match v.default with
  | .str s => .str (B.render s ctx)
  | d => d

/-- The initial engine state of a `load_context` run. -/
def initState : RState :=
  { context := [], skipTo := Option.none, prompted := [] }

/-- A concrete always-succeeding `re.compile` boundary. -/
def rc0 : String → Nat → Option CompiledRegex :=
  fun p f => some { pattern := p, flags := f }

/-- A concrete boundary assignment: the renderer returns the expression
text itself (as jinja2 does on literal text), the prompt echoes the
default, the regex matcher accepts everything. -/
def B0 : Boundaries :=
  { render := fun s _ => s
  , promptClick := fun v _ _ => v.default
  , regexMatch := fun _ _ => true }

/-- An unconditional variable declaration with only name/type/default. -/
def plainVar (name ty : String) (default : PyValue) : Variable :=
  { name := name, var_type := ty, prompt := defaultPromptText name
  , hide_input := false, default := default, skip_if := "", do_if := ""
  , if_yes_skip_to := Option.none, if_no_skip_to := Option.none
  , prompt_user := true, choices := [], validation := Option.none
  , validate := Option.none, validation_msg := Option.none }

/-- An `int`-typed variable whose declared default is the string "5". -/
def intVar5 : Variable := plainVar "n" "int" (.str "5")

/-- A `yes_no` variable defaulting to yes with `if_yes_skip_to = "X"`. -/
def yesVarX : Variable :=
  { plainVar "go" "yes_no" (.bool true) with if_yes_skip_to := some "X" }

/-- The context part of an optional `load_context` result. -/
def contextOf (r : Option LoadResult) : Option Ctx :=
  r.map LoadResult.context

/-- The prompt-log part of an optional `load_context` result. -/
def promptedOf (r : Option LoadResult) : Option (List String) :=
  r.map LoadResult.prompted

/-- The warning flag of an optional `load_context` result. -/
def warnedOf (r : Option LoadResult) : Option Bool :=
  r.map LoadResult.warned

/-! ### Lemmas: hex characters and UUID normalization -/

theorem lowerHex_isHex {c : Char} (h : isLowerHexChar c = true) :
    isHexDigitChar c = true := by
  simp only [isLowerHexChar, decide_eq_true_eq] at h
  simp only [isHexDigitChar, decide_eq_true_eq]
  omega

theorem hexLowerChar_lowers {c : Char} (h : isHexDigitChar c = true) :
    isLowerHexChar (hexLowerChar c) = true := by
  simp only [isHexDigitChar, decide_eq_true_eq] at h
  unfold hexLowerChar
  split
  · decide
  split
  · decide
  split
  · decide
  split
  · decide
  split
  · decide
  split
  · decide
  · simp only [isLowerHexChar, decide_eq_true_eq]
    omega

theorem hexLowerChar_fixed {c : Char} (h : isLowerHexChar c = true) :
    hexLowerChar c = c := by
  simp only [isLowerHexChar, decide_eq_true_eq] at h
  unfold hexLowerChar
  split
  · omega
  split
  · omega
  split
  · omega
  split
  · omega
  split
  · omega
  split
  · omega
  · rfl

theorem lowerHex_toNat_ne {c : Char} (h : isLowerHexChar c = true)
    {d : Char}
    (hd : d.toNat < 48 ∨ (57 < d.toNat ∧ d.toNat < 97) ∨ 102 < d.toNat) :
    c ≠ d := by
  simp only [isLowerHexChar, decide_eq_true_eq] at h
  intro he
  subst he
  omega

theorem replaceSub_of_no_head {p : Char} {ps l : List Char}
    (h : ∀ c ∈ l, c ≠ p) : replaceSub p ps l = l := by
  induction l with
  | nil => simp [replaceSub]
  | cons c rest ih =>
    rw [replaceSub]
    have hc : ¬ ((p :: ps).isPrefixOf (c :: rest) = true) := by
      simp only [List.isPrefixOf, Bool.and_eq_true, beq_iff_eq]
      intro hpre
      exact h c (List.mem_cons_self _ _) hpre.1.symm
    rw [if_neg hc]
    rw [ih (fun x hx => h x (List.mem_cons_of_mem _ hx))]

theorem dropWhile_all_false {p : Char → Bool} {l : List Char}
    (h : ∀ c ∈ l, p c = false) : l.dropWhile p = l := by
  cases l with
  | nil => rfl
  | cons c rest =>
    simp [List.dropWhile, h c (List.mem_cons_self _ _)]

theorem stripChars_of_no_mem {cs l : List Char}
    (h : ∀ c ∈ l, cs.contains c = false) : stripChars cs l = l := by
  unfold stripChars
  rw [dropWhile_all_false h]
  rw [dropWhile_all_false (fun c hc => h c (List.mem_reverse.mp hc))]
  exact List.reverse_reverse l

theorem map_hexLowerChar_fixed {l : List Char}
    (h : ∀ c ∈ l, isLowerHexChar c = true) : l.map hexLowerChar = l := by
  induction l with
  | nil => rfl
  | cons c rest ih =>
    simp only [List.map_cons]
    rw [hexLowerChar_fixed (h c (List.mem_cons_self _ _)),
      ih (fun x hx => h x (List.mem_cons_of_mem _ hx))]

theorem uuidStripped_of_lowerHex {l : List Char}
    (h : ∀ c ∈ l, isLowerHexChar c = true) :
    uuidStripped (String.mk l) = l := by
  have htl : (String.mk l).toList = l := rfl
  unfold uuidStripped
  rw [htl]
  rw [replaceSub_of_no_head (fun c hc => lowerHex_toNat_ne (h c hc) (by decide))]
  rw [replaceSub_of_no_head (fun c hc => lowerHex_toNat_ne (h c hc) (by decide))]
  have hbr : ∀ c ∈ l, (['\x7b', '\x7d'] : List Char).contains c = false := by
    intro c hc
    have h1 : c ≠ '\x7b' := lowerHex_toNat_ne (h c hc) (by decide)
    have h2 : c ≠ '\x7d' := lowerHex_toNat_ne (h c hc) (by decide)
    simp only [List.contains_cons, List.contains_nil, Bool.or_false,
      Bool.or_eq_false_iff, beq_eq_false_iff_ne, ne_eq]
    constructor
    · intro he
      exact h1 he
    · intro he
      exact h2 he
  rw [stripChars_of_no_mem hbr]
  rw [List.filter_eq_self.mpr (fun c hc => ?_)]
  have := lowerHex_toNat_ne (h c hc) (d := '-') (by decide)
  simpa using this

theorem uuidHexStr_lowerHex {s t : String} (h : uuidHexStr s = some t) :
    t.toList.length = 32 ∧ ∀ c ∈ t.toList, isLowerHexChar c = true := by
  unfold uuidHexStr at h
  split at h
  case isTrue hc =>
    obtain ⟨hlen, hall⟩ := hc
    have ht : t = String.mk ((uuidStripped s).map hexLowerChar) :=
      (Option.some.injEq _ _ ▸ h).symm
    subst ht
    have htl : (String.mk ((uuidStripped s).map hexLowerChar)).toList
        = (uuidStripped s).map hexLowerChar := rfl
    rw [htl]
    constructor
    · rw [List.length_map]; exact hlen
    · intro c hc
      obtain ⟨a, ha, rfl⟩ := List.mem_map.mp hc
      exact hexLowerChar_lowers (by
        have := List.all_eq_true.mp hall a ha
        exact this)
  case isFalse => exact absurd h (by simp)

theorem uuidHexStr_idem {s t : String} (h : uuidHexStr s = some t) :
    uuidHexStr t = some t := by
  obtain ⟨hlen, hall⟩ := uuidHexStr_lowerHex h
  have hmk : String.mk t.toList = t := by
    cases t; rfl
  have hstrip : uuidStripped t = t.toList := by
    have := uuidStripped_of_lowerHex hall
    rw [hmk] at this
    exact this
  unfold uuidHexStr
  rw [hstrip]
  have hcond : t.toList.length = 32 ∧ t.toList.all isHexDigitChar = true := by
    refine ⟨hlen, List.all_eq_true.mpr (fun c hc => lowerHex_isHex (hall c hc))⟩
  rw [if_pos hcond]
  rw [map_hexLowerChar_fixed hall, hmk]

/-! ### Lemmas: deserializer idempotence -/

theorem deserialize_string_idem {v w : PyValue}
    (h : deserialize_string v = some w) : deserialize_string w = some w := by
  simp only [deserialize_string, Option.some.injEq] at h
  subst h
  rfl

theorem deserialize_boolean_idem {v w : PyValue}
    (h : deserialize_boolean v = some w) : deserialize_boolean w = some w := by
  simp only [deserialize_boolean, Option.some.injEq] at h
  subst h
  cases pyTruthy v <;> rfl

theorem deserialize_yes_no_idem {v w : PyValue}
    (h : deserialize_yes_no v = some w) : deserialize_yes_no w = some w := by
  simp only [deserialize_yes_no, Option.some.injEq] at h
  subst h
  cases pyTruthy v <;> rfl

theorem deserialize_int_idem {v w : PyValue}
    (h : deserialize_int v = some w) : deserialize_int w = some w := by
  simp only [deserialize_int, Option.map_eq_some'] at h
  obtain ⟨n, _, rfl⟩ := h
  rfl

theorem deserialize_float_idem {v w : PyValue}
    (h : deserialize_float v = some w) : deserialize_float w = some w := by
  simp only [deserialize_float, Option.map_eq_some'] at h
  obtain ⟨q, _, rfl⟩ := h
  rfl

theorem deserialize_uuid_idem {v w : PyValue}
    (h : deserialize_uuid v = some w) : deserialize_uuid w = some w := by
  unfold deserialize_uuid at h
  split at h
  case h_1 s =>
    simp only [Option.map_eq_some'] at h
    obtain ⟨t, ht, rfl⟩ := h
    simp only [deserialize_uuid, uuidHexStr_idem ht, Option.map_some']
  all_goals exact absurd h (by simp)

theorem deserialize_json_idem {v w : PyValue}
    (h : deserialize_json v = some w) : deserialize_json w = some w := by
  simp only [deserialize_json, Option.some.injEq] at h
  subst h
  rfl

/-! ### Lemmas: context assignment -/

theorem any_eq_false_of_fresh {ctx : Ctx} {k : String}
    (h : ∀ p ∈ ctx, p.1 ≠ k) : (List.any ctx fun p => p.1 == k) = false := by
  rw [List.any_eq_false]
  intro p hp
  simpa using h p hp

theorem ctxSet_fresh {ctx : Ctx} {k : String} {v : PyValue}
    (h : ∀ p ∈ ctx, p.1 ≠ k) : ctxSet ctx k v = ctx ++ [(k, v)] := by
  unfold ctxSet
  rw [if_neg]
  · rfl
  · rw [any_eq_false_of_fresh h]
    simp

theorem map_fst_ctxSet_fresh {ctx : Ctx} {k : String} {v : PyValue}
    (h : ∀ p ∈ ctx, p.1 ≠ k) :
    (ctxSet ctx k v).map Prod.fst = ctx.map Prod.fst ++ [k] := by
  rw [ctxSet_fresh h]
  simp

theorem lookup_append_last_self {ctx : Ctx} {k : String} {v : PyValue}
    (hfresh : ∀ p ∈ ctx, (p.1 == k) = false) :
    (ctx ++ [(k, v)]).lookup k = some v := by
  induction ctx with
  | nil => simp [List.lookup]
  | cons p rest ih =>
    obtain ⟨p1, p2⟩ := p
    have h1 : (p1 == k) = false := hfresh (p1, p2) (List.mem_cons_self _ _)
    have h1' : (k == p1) = false := by
      simp only [beq_eq_false_iff_ne, ne_eq] at h1 ⊢
      intro he
      exact h1 he.symm
    simp only [List.cons_append, List.lookup, h1']
    exact ih (fun q hq => hfresh q (List.mem_cons_of_mem _ hq))

theorem lookup_append_last_ne {ctx : Ctx} {k k' : String} {v : PyValue}
    (h : k' ≠ k) : (ctx ++ [(k, v)]).lookup k' = ctx.lookup k' := by
  induction ctx with
  | nil =>
    simp only [List.nil_append, List.lookup]
    have : (k' == k) = false := by simpa using h
    simp [this]
  | cons p rest ih =>
    obtain ⟨p1, p2⟩ := p
    simp only [List.cons_append, List.lookup]
    cases hpk : (k' == p1) <;> simp [ih]

theorem lookup_map_set_self {ctx : Ctx} {k : String} {v : PyValue}
    (hany : (List.any ctx fun p => p.1 == k) = true) :
    (List.map (fun p => if p.1 == k then (k, v) else p) ctx).lookup k
      = some v := by
  induction ctx with
  | nil => simp at hany
  | cons p rest ih =>
    obtain ⟨p1, p2⟩ := p
    by_cases hpk : (p1 == k) = true
    · rw [List.map_cons, if_pos hpk]
      simp [List.lookup]
    · have hrest : (List.any rest fun q => q.1 == k) = true := by
        simp only [List.any_cons] at hany
        rcases Bool.or_eq_true_iff.mp hany with hl | hr
        · exact absurd hl hpk
        · exact hr
      rw [List.map_cons, if_neg hpk]
      have hne : (k == p1) = false := by
        simp only [beq_eq_false_iff_ne, ne_eq]
        intro he
        exact hpk (by simp [he])
      simp only [List.lookup, hne]
      exact ih hrest

theorem lookup_map_set_ne {ctx : Ctx} {k k' : String} {v : PyValue}
    (h : k' ≠ k) :
    (List.map (fun p => if p.1 == k then (k, v) else p) ctx).lookup k'
      = ctx.lookup k' := by
  induction ctx with
  | nil => rfl
  | cons p rest ih =>
    obtain ⟨p1, p2⟩ := p
    by_cases hpk : (p1 == k) = true
    · have hp1 : p1 = k := by simpa using hpk
      rw [List.map_cons, if_pos hpk]
      have hkk : (k' == k) = false := by simpa using h
      subst hp1
      simp only [List.lookup, hkk]
      exact ih
    · rw [List.map_cons, if_neg hpk]
      simp only [List.lookup]
      cases hpk' : (k' == p1) <;> simp only [hpk']
      exact ih

theorem lookup_ctxSet_self (ctx : Ctx) (k : String) (v : PyValue) :
    (ctxSet ctx k v).lookup k = some v := by
  unfold ctxSet
  split
  case isTrue hany => exact lookup_map_set_self hany
  case isFalse hany =>
    refine lookup_append_last_self ?_
    intro p hp
    by_contra hc
    exact hany (List.any_eq_true.mpr ⟨p, hp, by simpa using hc⟩)

theorem lookup_ctxSet_ne {ctx : Ctx} {k k' : String} {v : PyValue}
    (h : k' ≠ k) : (ctxSet ctx k v).lookup k' = ctx.lookup k' := by
  unfold ctxSet
  split
  case isTrue _ => exact lookup_map_set_ne h
  case isFalse _ => exact lookup_append_last_ne h

/-! ### Lemmas: the renderedVar projections -/

theorem renderedVar_name (B : Boundaries) (ctx : Ctx) (v : Variable) :
    (renderedVar B ctx v).name = v.name := by
  unfold renderedVar
  split <;> rfl

theorem renderedVar_var_type (B : Boundaries) (ctx : Ctx) (v : Variable) :
    (renderedVar B ctx v).var_type = v.var_type := by
  unfold renderedVar
  split <;> rfl

theorem renderedVar_prompt_user (B : Boundaries) (ctx : Ctx) (v : Variable) :
    (renderedVar B ctx v).prompt_user = v.prompt_user := by
  unfold renderedVar
  split <;> rfl

theorem renderedVar_if_yes (B : Boundaries) (ctx : Ctx) (v : Variable) :
    (renderedVar B ctx v).if_yes_skip_to = v.if_yes_skip_to := by
  unfold renderedVar
  split <;> rfl

theorem renderedVar_if_no (B : Boundaries) (ctx : Ctx) (v : Variable) :
    (renderedVar B ctx v).if_no_skip_to = v.if_no_skip_to := by
  unfold renderedVar
  split <;> rfl

theorem renderedVar_default (B : Boundaries) (ctx : Ctx) (v : Variable) :
    (renderedVar B ctx v).default = renderedDefault B ctx v := by
  unfold renderedVar renderedDefault
  split <;> rfl

theorem nextSkipTo_rendered (B : Boundaries) (ctx : Ctx) (v : Variable)
    (dv : PyValue) : nextSkipTo (renderedVar B ctx v) dv = nextSkipTo v dv := by
  unfold nextSkipTo
  rw [renderedVar_if_yes, renderedVar_if_no]

/-! ### Lemmas: step and resolveVars -/

theorem step_skipTo_none {B : Boundaries} {ni : Bool} {fuel : Nat}
    {st : RState} {v : Variable} (h : st.skipTo = Option.none) :
    step B ni fuel st v = afterPending B ni fuel st v := by
  obtain ⟨c, sk, p⟩ := st
  simp only at h
  subst h
  rfl

theorem step_pending_skip {B : Boundaries} {ni : Bool} {fuel : Nat}
    {st : RState} {v : Variable} {t : String} (h1 : st.skipTo = some t)
    (h2 : t ≠ "") (h3 : v.name ≠ t) : step B ni fuel st v = some st := by
  unfold step
  rw [h1]
  simp [h2, h3]

theorem step_pending_match {B : Boundaries} {ni : Bool} {fuel : Nat}
    {st : RState} {v : Variable} {t : String} (h1 : st.skipTo = some t)
    (h2 : v.name = t) :
    step B ni fuel st v
      = afterPending B ni fuel { st with skipTo := Option.none } v := by
  unfold step
  rw [h1]
  simp [h2]

theorem resolveVars_cons (B : Boundaries) (ni : Bool) (fuel : Nat)
    (st : RState) (v : Variable) (vs : List Variable) :
    resolveVars B ni fuel st (v :: vs)
      = (step B ni fuel st v).bind fun st' => resolveVars B ni fuel st' vs :=
  rfl

theorem resolveVars_append (B : Boundaries) (ni : Bool) (fuel : Nat)
    (l1 l2 : List Variable) : ∀ st : RState,
    resolveVars B ni fuel st (l1 ++ l2)
      = (resolveVars B ni fuel st l1).bind fun st' =>
          resolveVars B ni fuel st' l2 := by
  induction l1 with
  | nil => intro st; simp [resolveVars]
  | cons v vs ih =>
    intro st
    simp only [List.cons_append, resolveVars_cons]
    cases step B ni fuel st v with
    | none => rfl
    | some st1 => simp only [Option.some_bind]; exact ih st1

theorem resolveVars_pending {B : Boundaries} {ni : Bool} {fuel : Nat}
    {t : String} (h2 : t ≠ "") : ∀ (vs : List Variable) (st : RState),
    st.skipTo = some t → (∀ v ∈ vs, v.name ≠ t) →
    resolveVars B ni fuel st vs = some st := by
  intro vs
  induction vs with
  | nil => intro st _ _; rfl
  | cons v rest ih =>
    intro st h1 hall
    rw [resolveVars_cons,
      step_pending_skip h1 h2 (hall v (List.mem_cons_self _ _))]
    simp only [Option.some_bind]
    exact ih st h1 (fun u hu => hall u (List.mem_cons_of_mem _ hu))

/-! ### Lemmas: the non-interactive path and the store shape -/

theorem processVar_no_input (B : Boundaries) (fuel : Nat) (st : RState)
    (v : Variable) :
    processVar B true fuel st v
      = (DESERIALIZERS v.var_type).bind fun d =>
          (d (renderedDefault B st.context v)).bind fun dv =>
            some { context := ctxSet st.context v.name dv
                 , skipTo := nextSkipTo v dv
                 , prompted := st.prompted } := by
  unfold processVar
  simp only [Bool.true_or, if_true, Option.some_bind, renderedVar_default,
    renderedVar_var_type, renderedVar_name, nextSkipTo_rendered]

theorem processVar_store {B : Boundaries} {ni : Bool} {fuel : Nat}
    {st st' : RState} {v : Variable}
    (h : processVar B ni fuel st v = some st') :
    ∃ dv, st'.context = ctxSet st.context v.name dv
      ∧ st'.skipTo = nextSkipTo v dv := by
  unfold processVar at h
  rcases hvp : (if ni || (!(renderedVar B st.context v).prompt_user) then
      some ((renderedVar B st.context v).default, st.prompted)
    else (prompt_variable B fuel (renderedVar B st.context v)).map
      (fun x => (x, st.prompted ++ [(renderedVar B st.context v).name])))
    with _ | vp
  · rw [hvp] at h
    simp at h
  · rw [hvp] at h
    simp only [Option.some_bind] at h
    rcases hd : DESERIALIZERS (renderedVar B st.context v).var_type
      with _ | d
    · rw [hd] at h
      simp at h
    · rw [hd] at h
      simp only [Option.some_bind] at h
      rcases hdv : d vp.1 with _ | dv
      · rw [hdv] at h
        simp at h
      · rw [hdv] at h
        simp only [Option.some_bind, Option.some.injEq] at h
        refine ⟨dv, ?_, ?_⟩
        · rw [← h]
          simp [renderedVar_name]
        · rw [← h]
          simp [nextSkipTo_rendered]

theorem processVar_prompted_no_input {B : Boundaries} {fuel : Nat}
    {st st' : RState} {v : Variable}
    (h : processVar B true fuel st v = some st') :
    st'.prompted = st.prompted := by
  rw [processVar_no_input] at h
  rcases hd : DESERIALIZERS v.var_type with _ | d
  · rw [hd] at h
    simp at h
  · rw [hd] at h
    simp only [Option.some_bind] at h
    rcases hdv : d (renderedDefault B st.context v) with _ | dv
    · rw [hdv] at h
      simp at h
    · rw [hdv] at h
      simp only [Option.some_bind, Option.some.injEq] at h
      rw [← h]

theorem afterPending_cases {B : Boundaries} {ni : Bool} {fuel : Nat}
    {st st' : RState} {v : Variable}
    (h : afterPending B ni fuel st v = some st') :
    st' = st ∨ processVar B ni fuel st v = some st' := by
  unfold afterPending at h
  split at h
  · left
    exact (Option.some.inj h).symm
  split at h
  · left
    exact (Option.some.inj h).symm
  · right
    exact h

theorem step_cases {B : Boundaries} {ni : Bool} {fuel : Nat}
    {st st' : RState} {v : Variable} (h : step B ni fuel st v = some st') :
    st' = st ∨ st' = { st with skipTo := Option.none }
      ∨ processVar B ni fuel { st with skipTo := Option.none } v
          = some st' := by
  unfold step at h
  split at h
  · left
    exact (Option.some.inj h).symm
  · rcases afterPending_cases h with he | hp
    · right; left; exact he
    · right; right; exact hp

theorem step_prompted_no_input {B : Boundaries} {fuel : Nat}
    {st st' : RState} {v : Variable} (h : step B true fuel st v = some st') :
    st'.prompted = st.prompted := by
  rcases step_cases h with rfl | he | hp
  · rfl
  · rw [he]
  · exact processVar_prompted_no_input hp

theorem resolveVars_prompted_no_input {B : Boundaries} {fuel : Nat} :
    ∀ {vs : List Variable} {st st' : RState},
    resolveVars B true fuel st vs = some st' → st'.prompted = st.prompted := by
  intro vs
  induction vs with
  | nil =>
    intro st st' h
    simp only [resolveVars, Option.some.injEq] at h
    rw [← h]
  | cons v rest ih =>
    intro st st' h
    rw [resolveVars_cons] at h
    rcases hstep : step B true fuel st v with _ | st1
    · rw [hstep] at h
      simp at h
    · rw [hstep] at h
      simp only [Option.some_bind] at h
      rw [ih h, step_prompted_no_input hstep]

theorem step_render_indep {B B' : Boundaries} (hB : B.render = B'.render)
    (ni : Bool) (hni : ni = true) (fuel fuel' : Nat) (st : RState)
    (v : Variable) : step B ni fuel st v = step B' ni fuel' st v := by
  subst hni
  unfold step afterPending
  rw [hB]
  rw [processVar_no_input, processVar_no_input]
  unfold renderedDefault
  rw [hB]

theorem resolveVars_render_indep {B B' : Boundaries}
    (hB : B.render = B'.render) (fuel fuel' : Nat) :
    ∀ (vs : List Variable) (st : RState),
    resolveVars B true fuel st vs = resolveVars B' true fuel' st vs := by
  intro vs
  induction vs with
  | nil => intro st; rfl
  | cons v rest ih =>
    intro st
    rw [resolveVars_cons, resolveVars_cons,
      step_render_indep hB true rfl fuel fuel' st v]
    cases step B' true fuel' st v with
    | none => rfl
    | some st1 => simp only [Option.some_bind]; exact ih st1

/-! ### Lemmas: plain (unconditional) variables preserve declared order -/

/-- A variable declaring no `skip_if`, no `do_if` and no skip-to
targets. -/
def PlainDecl (v : Variable) : Prop :=
  v.skip_if = "" ∧ v.do_if = "" ∧ v.if_yes_skip_to = Option.none
    ∧ v.if_no_skip_to = Option.none

theorem nextSkipTo_no_targets {v : Variable} (hy : v.if_yes_skip_to = Option.none)
    (hn : v.if_no_skip_to = Option.none) (dv : PyValue) :
    nextSkipTo v dv = Option.none := by
  unfold nextSkipTo
  rw [hy, hn]
  simp [truthyOptStr]

theorem afterPending_plain {B : Boundaries} {ni : Bool} {fuel : Nat}
    {st : RState} {v : Variable} (h1 : v.skip_if = "") (h2 : v.do_if = "") :
    afterPending B ni fuel st v = processVar B ni fuel st v := by
  unfold afterPending
  rw [h1, h2]
  simp

theorem step_plain {B : Boundaries} {ni : Bool} {fuel : Nat}
    {st st' : RState} {v : Variable} (hv : PlainDecl v)
    (hsk : st.skipTo = Option.none) (h : step B ni fuel st v = some st') :
    (∃ dv, st'.context = ctxSet st.context v.name dv)
      ∧ st'.skipTo = Option.none := by
  rw [step_skipTo_none hsk, afterPending_plain hv.1 hv.2.1] at h
  obtain ⟨dv, hctx, hskip⟩ := processVar_store h
  refine ⟨⟨dv, hctx⟩, ?_⟩
  rw [hskip, nextSkipTo_no_targets hv.2.2.1 hv.2.2.2]

theorem resolveVars_plain {B : Boundaries} {ni : Bool} {fuel : Nat} :
    ∀ {vs : List Variable} {st st' : RState},
    (∀ v ∈ vs, PlainDecl v) → (vs.map Variable.name).Nodup →
    (∀ v ∈ vs, v.name ∉ st.context.map Prod.fst) →
    st.skipTo = Option.none →
    resolveVars B ni fuel st vs = some st' →
    st'.context.map Prod.fst = st.context.map Prod.fst ++ vs.map Variable.name
      ∧ st'.skipTo = Option.none := by
  intro vs
  induction vs with
  | nil =>
    intro st st' _ _ _ hsk h
    simp only [resolveVars, Option.some.injEq] at h
    rw [← h]
    simp [hsk]
  | cons v rest ih =>
    intro st st' hplain hnodup hfresh hsk h
    rw [resolveVars_cons] at h
    rcases hstep : step B ni fuel st v with _ | st1
    · rw [hstep] at h
      simp at h
    · rw [hstep] at h
      simp only [Option.some_bind] at h
      obtain ⟨⟨dv, hctx⟩, hskip⟩ :=
        step_plain (hplain v (List.mem_cons_self _ _)) hsk hstep
      have hv_fresh : ∀ p ∈ st.context, p.1 ≠ v.name := by
        intro p hp he
        exact hfresh v (List.mem_cons_self _ _)
          (List.mem_map.mpr ⟨p, hp, he⟩)
      have hkeys1 : st1.context.map Prod.fst
          = st.context.map Prod.fst ++ [v.name] := by
        rw [hctx]
        exact map_fst_ctxSet_fresh hv_fresh
      have hnodup' : (rest.map Variable.name).Nodup :=
        (List.nodup_cons.mp (by simpa using hnodup)).2
      have hhead : v.name ∉ rest.map Variable.name :=
        (List.nodup_cons.mp (by simpa using hnodup)).1
      have hfresh1 : ∀ u ∈ rest, u.name ∉ st1.context.map Prod.fst := by
        intro u hu hmem
        rw [hkeys1] at hmem
        rcases List.mem_append.mp hmem with hm | hm
        · exact hfresh u (List.mem_cons_of_mem _ hu) hm
        · have : u.name = v.name := by simpa using hm
          exact hhead (this ▸ List.mem_map.mpr ⟨u, hu, rfl⟩)
      obtain ⟨hk, hs⟩ := ih
        (fun u hu => hplain u (List.mem_cons_of_mem _ hu))
        hnodup' hfresh1 hskip h
      refine ⟨?_, hs⟩
      rw [hk, hkeys1]
      simp

/-! ### Lemmas: flag collection -/

theorem collectFlags_ok : ∀ (fs : List String) (acc : Nat),
    (∀ f ∈ fs, (REGEX_COMPILE_FLAGS f).isSome = true) →
    collectFlags acc fs
      = .ok (fs.foldl (fun a f => a ||| (REGEX_COMPILE_FLAGS f).getD 0) acc) := by
  intro fs
  induction fs with
  | nil => intro acc _; rfl
  | cons f rest ih =>
    intro acc hall
    have hf := hall f (List.mem_cons_self _ _)
    rcases hl : REGEX_COMPILE_FLAGS f with _ | n
    · rw [hl] at hf
      simp at hf
    · simp only [collectFlags, hl, List.foldl_cons]
      rw [ih (acc ||| n) (fun g hg => hall g (List.mem_cons_of_mem _ hg))]
      rfl

theorem collectFlags_error_shape : ∀ (fs : List String) (acc : Nat)
    (e : VarErr), collectFlags acc fs = .error e →
    ∃ f ∈ fs, e = .keyError f ∧ REGEX_COMPILE_FLAGS f = Option.none := by
  intro fs
  induction fs with
  | nil =>
    intro acc e h
    simp [collectFlags] at h
  | cons f rest ih =>
    intro acc e h
    rcases hl : REGEX_COMPILE_FLAGS f with _ | n
    · simp only [collectFlags, hl, Except.error.injEq] at h
      exact ⟨f, List.mem_cons_self _ _, h.symm, hl⟩
    · simp only [collectFlags, hl] at h
      obtain ⟨g, hg, he, hgl⟩ := ih (acc ||| n) e h
      exact ⟨g, List.mem_cons_of_mem _ hg, he, hgl⟩

theorem collectFlags_first_missing : ∀ (fs1 : List String) {f : String}
    (fs2 : List String) (acc : Nat),
    (∀ g ∈ fs1, (REGEX_COMPILE_FLAGS g).isSome = true) →
    REGEX_COMPILE_FLAGS f = Option.none →
    collectFlags acc (fs1 ++ f :: fs2) = .error (.keyError f) := by
  intro fs1
  induction fs1 with
  | nil =>
    intro f fs2 acc _ hf
    simp [collectFlags, hf]
  | cons g rest ih =>
    intro f fs2 acc hall hf
    have hg := hall g (List.mem_cons_self _ _)
    rcases hl : REGEX_COMPILE_FLAGS g with _ | n
    · rw [hl] at hg
      simp at hg
    · simp only [List.cons_append, collectFlags, hl]
      exact ih fs2 (acc ||| n) (fun x hx => hall x (List.mem_cons_of_mem _ hx)) hf

/-! ### Claim C3 -/

/-- C3: `validate_requirement` splits the requirement expression on
commas, strips each clause, and requires every clause to hold (implicit
AND); each clause is parsed by trying a two-character comparator token
before a one-character one, defaulting to equality when no comparator is
present, and compares parsed semantic versions.  In particular
`satisfies(">=1.0,<2.0", "1.5.0")` is true,
`satisfies(">=1.0,<2.0", "2.0.0")` is false, and
`satisfies("==1.0.0", "1.0.0")` is true.  The extra concrete clauses
below witness (a) the two-character parse winning over the
one-character one (`<=1.0` accepts `1.0.0` where `<1.0` rejects it),
(b) the implicit-equality default, and (c) the conjunction over
comma-separated clauses. -/
theorem C3_requirement_checker :
    (∀ req pkg : String, validate_requirement req pkg
      = validateClauses pkg.toList
          ((splitOnChar ',' req.toList).map stripCharsWs)) ∧
    validate_requirement ">=1.0,<2.0" "1.5.0" = some true ∧
    validate_requirement ">=1.0,<2.0" "2.0.0" = some false ∧
    validate_requirement "==1.0.0" "1.0.0" = some true ∧
    validate_requirement "<=1.0" "1.0.0" = some true ∧
    validate_requirement "<1.0" "1.0.0" = some false ∧
    validate_requirement "1.5" "1.5.0" = some true ∧
    validate_requirement "1.5" "1.5.1" = some false ∧
    validate_requirement " >=1.0 , <2.0 , ==1.7.3 " "1.7.3" = some true ∧
    validate_requirement ">=1.0,<2.0,==1.6.0" "1.7.3" = some false := by
  refine ⟨fun req pkg => rfl, ?_, ?_, ?_, ?_, ?_, ?_, ?_, ?_, ?_⟩ <;> rfl

/-! ### Claim C5 -/

/-- C5: every deserializer in the `DESERIALIZERS` table is idempotent on
its domain (`deserialize (deserialize v) = deserialize v` whenever the
first application succeeds); moreover string is passthrough via `str`,
boolean and yes/no are boolean coercion, int and float are numeric
coercion, uuid maps a string to its hexadecimal form, and json is the
identity. -/
theorem C5_deserializers_idempotent :
    (∀ (tag : String) (d : PyValue → Option PyValue) (v w : PyValue),
      DESERIALIZERS tag = some d → d v = some w → d w = some w) ∧
    DESERIALIZERS "string" = some deserialize_string ∧
    DESERIALIZERS "boolean" = some deserialize_boolean ∧
    DESERIALIZERS "int" = some deserialize_int ∧
    DESERIALIZERS "float" = some deserialize_float ∧
    DESERIALIZERS "uuid" = some deserialize_uuid ∧
    DESERIALIZERS "json" = some deserialize_json ∧
    DESERIALIZERS "yes_no" = some deserialize_yes_no ∧
    (∀ v, deserialize_string v = some (.str (pyStrFn v))) ∧
    (∀ v, deserialize_boolean v = some (.bool (pyTruthy v))) ∧
    (∀ v, deserialize_yes_no v = some (.bool (pyTruthy v))) ∧
    (∀ v, deserialize_int v = (pyInt v).map .int) ∧
    (∀ v, deserialize_float v = (pyFloat v).map .float) ∧
    (∀ s, deserialize_uuid (.str s) = (uuidHexStr s).map .str) ∧
    (∀ v, deserialize_json v = some v) := by
  refine ⟨?_, rfl, rfl, rfl, rfl, rfl, rfl, rfl,
    fun v => rfl, fun v => rfl, fun v => rfl, fun v => rfl, fun v => rfl,
    fun s => rfl, fun v => rfl⟩
  intro tag d v w htab h
  unfold DESERIALIZERS at htab
  split at htab
  · injection htab with he
    subst he
    exact deserialize_string_idem h
  · injection htab with he
    subst he
    exact deserialize_boolean_idem h
  · injection htab with he
    subst he
    exact deserialize_int_idem h
  · injection htab with he
    subst he
    exact deserialize_float_idem h
  · injection htab with he
    subst he
    exact deserialize_uuid_idem h
  · injection htab with he
    subst he
    exact deserialize_json_idem h
  · injection htab with he
    subst he
    exact deserialize_yes_no_idem h
  · exact absurd htab (by simp)

/-- Witness for C5: the int deserializer applied to the string `"5"`
yields `5`, and reapplying it to `5` is stable. -/
theorem C5_deserializers_idempotent_witness :
    deserialize_int (.int 5) = some (.int 5) :=
  C5_deserializers_idempotent.1 "int" deserialize_int (.str "5") (.int 5)
    rfl rfl

/-! ### Claim C6 -/

/-- C6: when an explicit default is supplied, `choices` is non-empty and
the default is not a member (Python `in`), `Variable.__init__` raises
the choice-mismatch `ValueError`; when the default is a member, that
error is never raised — in particular `choices=["a","b"], default="c"`
raises and `choices=["a","b"], default="a"` constructs successfully. -/
theorem C6_choice_default :
    (∀ (rc : String → Nat → Option CompiledRegex) (name ty : String)
        (info : VarInfo),
      info.choices.getD [] ≠ [] → info.default.isSome = true →
      pyMem (info.default.getD .none) (info.choices.getD []) = false →
      mkVariable rc name ty info = .error .choiceMismatch) ∧
    (∀ (rc : String → Nat → Option CompiledRegex) (name ty : String)
        (info : VarInfo),
      pyMem (info.default.getD .none) (info.choices.getD []) = true →
      mkVariable rc name ty info ≠ .error .choiceMismatch) ∧
    mkVariable rc0 "v" "string"
      { choices := some [.str "a", .str "b"], default := some (.str "c") }
      = .error .choiceMismatch ∧
    (∃ var, mkVariable rc0 "v" "string"
      { choices := some [.str "a", .str "b"], default := some (.str "a") }
      = .ok var) := by
  refine ⟨?_, ?_, rfl, ⟨_, rfl⟩⟩
  · intro rc name ty info h1 h2 h3
    have hne : (info.choices.getD []).isEmpty = false := by
      cases hc : (info.choices.getD []).isEmpty
      · rfl
      · exact absurd (List.isEmpty_iff.mp hc) h1
    simp [mkVariable, hne, h2, h3]
  · intro rc name ty info hmem hcontr
    simp only [mkVariable, hmem, Bool.not_true, Bool.and_false,
      Bool.false_eq_true, if_false] at hcontr
    split at hcontr
    · split at hcontr
      · split at hcontr
        next e heq =>
          obtain ⟨f, _, hef, _⟩ := collectFlags_error_shape _ _ _ heq
          subst hef
          simp at hcontr
        next flags heq =>
          split at hcontr
          · simp at hcontr
          · split at hcontr
            · simp at hcontr
            · simp at hcontr
      · simp at hcontr
    · simp at hcontr

/-- Witness for C6: the general mismatch branch applied to a concrete
declaration (`choices=["x","y"]`, `default="z"`). -/
theorem C6_choice_default_witness :
    mkVariable rc0 "w" "string"
      { choices := some [.str "x", .str "y"], default := some (.str "z") }
      = .error .choiceMismatch :=
  C6_choice_default.1 rc0 "w" "string"
    { choices := some [.str "x", .str "y"], default := some (.str "z") }
    (by simp) rfl rfl

/-! ### Claim C4 -/

/-- C4 as stated is false on this code: the flag table spells the
multiline flag name `"mulitline"` (the source table and its docstring
both carry the typo), so the flag name `"multiline"` is NOT accepted —
supplying it with a perfectly good pattern and an always-succeeding
compile boundary raises an uncaught `KeyError` (not the
`ValidationCompileError` `ValueError` the claim names). -/
theorem C4_flags_counterexample :
    mkVariable rc0 "v" "string"
      { validation := some "^a$", validation_flags := some ["multiline"] }
      = .error (.keyError "multiline") ∧
    VarErr.keyError "multiline" ≠ VarErr.validationCompileError ∧
    REGEX_COMPILE_FLAGS "multiline" = Option.none ∧
    REGEX_COMPILE_FLAGS "mulitline" = some 8 := by
  exact ⟨rfl, by simp, rfl, rfl⟩

/-- C4 amended: the supported flag names are ascii, debug, ignorecase,
locale, `mulitline` (sic — the source's spelling of multiline), dotall
and verbose, each enabling the corresponding numeric `re` flag; any
combination of supported names is accepted, OR-ing their flag values
into the compile call; a name outside this set (including the standard
spelling `"multiline"`) raises a construction-time `KeyError` — not
`ValidationCompileError` — for every variable type and every compile
boundary, never deferred to resolution time. -/
theorem C4_flags_amended :
    REGEX_COMPILE_FLAGS "ascii" = some 256 ∧
    REGEX_COMPILE_FLAGS "debug" = some 128 ∧
    REGEX_COMPILE_FLAGS "ignorecase" = some 2 ∧
    REGEX_COMPILE_FLAGS "locale" = some 4 ∧
    REGEX_COMPILE_FLAGS "mulitline" = some 8 ∧
    REGEX_COMPILE_FLAGS "dotall" = some 16 ∧
    REGEX_COMPILE_FLAGS "verbose" = some 64 ∧
    (∀ f, f ∉ ["ascii", "debug", "ignorecase", "locale", "mulitline",
        "dotall", "verbose"] → REGEX_COMPILE_FLAGS f = Option.none) ∧
    (∀ (rc : String → Nat → Option CompiledRegex) (name pat : String)
        (fs : List String) (info : VarInfo) (r : CompiledRegex),
      info.validation = some pat → pat ≠ "" →
      info.validation_flags = some fs →
      (∀ f ∈ fs, (REGEX_COMPILE_FLAGS f).isSome = true) →
      info.choices = Option.none →
      rc pat (fs.foldl (fun a f => a ||| (REGEX_COMPILE_FLAGS f).getD 0) 0)
        = some r →
      ∃ var, mkVariable rc name "string" info = .ok var
        ∧ var.validate = some r) ∧
    (∀ (rc : String → Nat → Option CompiledRegex) (name ty pat : String)
        (fs1 : List String) (f : String) (fs2 : List String)
        (info : VarInfo),
      info.validation = some pat → pat ≠ "" →
      info.validation_flags = some (fs1 ++ f :: fs2) →
      (∀ g ∈ fs1, (REGEX_COMPILE_FLAGS g).isSome = true) →
      REGEX_COMPILE_FLAGS f = Option.none →
      info.choices = Option.none →
      mkVariable rc name ty info = .error (.keyError f)) := by
  refine ⟨rfl, rfl, rfl, rfl, rfl, rfl, rfl, ?_, ?_, ?_⟩
  · intro f hf
    unfold REGEX_COMPILE_FLAGS
    split
    all_goals first
      | rfl
      | simp at hf
  · intro rc name pat fs info r hval hpat hfs hsupp hch hrc
    simp only [mkVariable, hval, hfs, hch, Option.getD_some, Option.getD_none,
      List.isEmpty_nil, Bool.not_true, Bool.false_and, Bool.false_eq_true,
      if_false, Option.isSome_some]
    rw [if_pos hpat, collectFlags_ok fs 0 hsupp]
    simp only [hrc]
    rw [if_neg (by simp)]
    exact ⟨_, rfl, rfl⟩
  · intro rc name ty pat fs1 f fs2 info hval hpat hfs hsupp hf hch
    simp only [mkVariable, hval, hfs, hch, Option.getD_some, Option.getD_none,
      List.isEmpty_nil, Bool.not_true, Bool.false_and, Bool.false_eq_true,
      if_false, Option.isSome_some]
    rw [if_pos hpat, collectFlags_first_missing fs1 fs2 0 hsupp hf]

/-- Witness for C4's amended statement: the flag list
`["mulitline", "multiline"]` fails at the unsupported second name with
`KeyError "multiline"` even on a non-string variable and with an
always-succeeding compile boundary. -/
theorem C4_flags_amended_witness :
    mkVariable rc0 "v2" "int"
      { validation := some "^a$"
      , validation_flags := some ["mulitline", "multiline"] }
      = .error (.keyError "multiline") :=
  (C4_flags_amended.2.2.2.2.2.2.2.2.2) rc0 "v2" "int" "^a$" ["mulitline"]
    "multiline" []
    { validation := some "^a$"
    , validation_flags := some ["mulitline", "multiline"] }
    rfl (by decide) rfl (by decide) rfl rfl

/-! ### Claim C10 -/

/-- C10: a declared `validation` that is the empty string is falsy, so
the whole validation block is bypassed: the result does not depend on
the regex-compile boundary, the flag-name list is never consulted,
construction succeeds with `validate = None` even for non-string types,
and resolution applies no input validation (the prompt loop accepts the
first solicited value). -/
theorem C10_empty_validation :
    (∀ (rc rc' : String → Nat → Option CompiledRegex) (name ty : String)
        (info : VarInfo), info.validation = some "" →
      mkVariable rc name ty info = mkVariable rc' name ty info) ∧
    (∀ (rc : String → Nat → Option CompiledRegex) (name ty : String)
        (info : VarInfo) (fs fs' : Option (List String)),
      info.validation = some "" →
      mkVariable rc name ty { info with validation_flags := fs }
        = mkVariable rc name ty { info with validation_flags := fs' }) ∧
    (∀ (rc : String → Nat → Option CompiledRegex) (name ty : String)
        (info : VarInfo), info.validation = some "" →
      info.choices = Option.none →
      ∃ var, mkVariable rc name ty info = .ok var
        ∧ var.validate = Option.none) ∧
    (∀ (B : Boundaries) (fuel : Nat) (v : Variable),
      v.validate = Option.none →
      prompt_variable B (fuel + 1) v = some (B.promptClick v v.default 0)) := by
  refine ⟨?_, ?_, ?_, ?_⟩
  · intro rc rc' name ty info hval
    simp [mkVariable, hval]
  · intro rc name ty info fs fs' hval
    simp [mkVariable, hval]
  · intro rc name ty info hval hch
    simp only [mkVariable, hval, hch, Option.getD_some, Option.getD_none,
      List.isEmpty_nil, Bool.not_true, Bool.false_and, Bool.false_eq_true,
      if_false]
    rw [if_neg (by simp)]
    exact ⟨_, rfl, rfl⟩
  · intro B fuel v hv
    simp [prompt_variable, promptLoop, hv]

/-- Witness for C10: with `validation = ""`, two entirely different
compile boundaries produce the same constructed variable even for an
`int`-typed declaration with a bogus flag name, and the prompt loop
returns the first solicited value when `validate` is absent. -/
theorem C10_empty_validation_witness :
    mkVariable rc0 "v" "int"
      { validation := some "", validation_flags := some ["bogus"] }
      = mkVariable (fun _ _ => Option.none) "v" "int"
        { validation := some "", validation_flags := some ["bogus"] } ∧
    prompt_variable B0 1 (plainVar "p" "string" (.str "d"))
      = some (B0.promptClick (plainVar "p" "string" (.str "d")) (.str "d") 0) :=
  ⟨C10_empty_validation.1 rc0 (fun _ _ => Option.none) "v" "int"
      { validation := some "", validation_flags := some ["bogus"] } rfl,
    C10_empty_validation.2.2.2 B0 0 (plainVar "p" "string" (.str "d")) rfl⟩

/-! ### Claim C9 -/

/-- C9: with no pending jump, a non-empty `skip_if` omits the variable
iff its rendering is exactly the string `"True"` (and then the `do_if`
field is irrelevant: it is not evaluated); a non-empty `do_if` omits it
iff its rendering is exactly `"False"` and `skip_if` did not already
skip; in all other cases the step is exactly the processing path, which
stores a value under the variable's name.  The concrete runs show the
renderings `"true"` and `"1"` (skip_if) and `"false"` (do_if) do not
skip, while the exact literals do. -/
theorem C9_skip_do_literals :
    (∀ (B : Boundaries) (ni : Bool) (fuel : Nat) (st : RState)
        (v : Variable) (d : String),
      st.skipTo = Option.none → v.skip_if ≠ "" →
      B.render v.skip_if st.context = "True" →
      step B ni fuel st { v with do_if := d } = some st) ∧
    (∀ (B : Boundaries) (ni : Bool) (fuel : Nat) (st : RState)
        (v : Variable),
      st.skipTo = Option.none → v.do_if ≠ "" →
      (v.skip_if = "" ∨ B.render v.skip_if st.context ≠ "True") →
      B.render v.do_if st.context = "False" →
      step B ni fuel st v = some st) ∧
    (∀ (B : Boundaries) (ni : Bool) (fuel : Nat) (st : RState)
        (v : Variable),
      st.skipTo = Option.none →
      (v.skip_if = "" ∨ B.render v.skip_if st.context ≠ "True") →
      (v.do_if = "" ∨ B.render v.do_if st.context ≠ "False") →
      step B ni fuel st v = processVar B ni fuel st v) ∧
    (∀ (B : Boundaries) (ni : Bool) (fuel : Nat) (st st' : RState)
        (v : Variable),
      processVar B ni fuel st v = some st' →
      ∃ dv, st'.context = ctxSet st.context v.name dv) ∧
    contextOf (load_context B0 { variableList :=
        [{ plainVar "s" "string" (.str "S") with skip_if := "True" }] }
        true 1)
      = some [("_extensions", .none), ("_jinja2_env_vars", .none)] ∧
    contextOf (load_context B0 { variableList :=
        [{ plainVar "s" "string" (.str "S") with skip_if := "true" }] }
        true 1)
      = some [("s", .str "S"), ("_extensions", .none),
          ("_jinja2_env_vars", .none)] ∧
    contextOf (load_context B0 { variableList :=
        [{ plainVar "s" "string" (.str "S") with skip_if := "1" }] }
        true 1)
      = some [("s", .str "S"), ("_extensions", .none),
          ("_jinja2_env_vars", .none)] ∧
    contextOf (load_context B0 { variableList :=
        [{ plainVar "s" "string" (.str "S") with do_if := "False" }] }
        true 1)
      = some [("_extensions", .none), ("_jinja2_env_vars", .none)] ∧
    contextOf (load_context B0 { variableList :=
        [{ plainVar "s" "string" (.str "S") with do_if := "false" }] }
        true 1)
      = some [("s", .str "S"), ("_extensions", .none),
          ("_jinja2_env_vars", .none)] := by
  refine ⟨?_, ?_, ?_, ?_, rfl, rfl, rfl, rfl, rfl⟩
  · intro B ni fuel st v d hsk h2 h3
    rw [step_skipTo_none hsk]
    unfold afterPending
    simp [h2, h3]
  · intro B ni fuel st v hsk h2 hskif h4
    rw [step_skipTo_none hsk]
    unfold afterPending
    rcases hskif with h | h <;> simp [h, h2, h4]
  · intro B ni fuel st v hsk hskif hdoif
    rw [step_skipTo_none hsk]
    unfold afterPending
    rcases hskif with h | h <;> rcases hdoif with h' | h' <;>
      simp [h, h']
  · intro B ni fuel st st' v h
    obtain ⟨dv, hctx, _⟩ := processVar_store h
    exact ⟨dv, hctx⟩

/-- Witness for C9: a variable whose `skip_if` renders `"True"` is
skipped with the state unchanged, whatever its `do_if` says. -/
theorem C9_skip_do_literals_witness :
    step B0 true 1 initState
      { plainVar "s" "string" (.str "S") with
        skip_if := "True", do_if := "ignored" }
      = some initState :=
  C9_skip_do_literals.1 B0 true 1 initState
    { plainVar "s" "string" (.str "S") with skip_if := "True" } "ignored"
    rfl (by decide) rfl

/-! ### Claim C2 -/

/-- C2 as stated is false on this code: with `no_input=True` the prompt
boundary is indeed never engaged, but the value surfaced in the context
is the DESERIALIZATION of the (rendered) default, not the default
itself.  Concretely, an `int` variable with declared default `"5"`
(whose rendering under the literal-text renderer is `"5"` itself)
surfaces the integer `5`, which differs from the string `"5"`. -/
theorem C2_no_input_counterexample :
    contextOf (load_context B0 { variableList := [intVar5] } true 1)
      = some [("n", .int 5), ("_extensions", .none),
          ("_jinja2_env_vars", .none)] ∧
    promptedOf (load_context B0 { variableList := [intVar5] } true 1)
      = some [] ∧
    B0.render "5" [] = "5" ∧
    PyValue.int 5 ≠ PyValue.str "5" := by
  refine ⟨rfl, rfl, rfl, by simp⟩

/-- C2 amended: with `no_input=True` the prompt boundary is never
invoked (the prompt log stays empty and the run is unchanged under any
replacement of the prompt and regex boundaries), and every non-skipped
variable surfaces exactly the deserialization, per its type tag, of its
(possibly expression-rendered) default. -/
theorem C2_no_input_amended :
    (∀ (B : Boundaries) (tmpl : Template) (fuel : Nat) (r : LoadResult),
      load_context B tmpl true fuel = some r → r.prompted = []) ∧
    (∀ (B B' : Boundaries) (tmpl : Template) (fuel fuel' : Nat),
      B.render = B'.render →
      load_context B tmpl true fuel = load_context B' tmpl true fuel') ∧
    (∀ (B : Boundaries) (fuel : Nat) (st st' : RState) (v : Variable),
      processVar B true fuel st v = some st' →
      ∃ d dv, DESERIALIZERS v.var_type = some d
        ∧ d (renderedDefault B st.context v) = some dv
        ∧ st'.context = ctxSet st.context v.name dv) := by
  refine ⟨?_, ?_, ?_⟩
  · intro B tmpl fuel r h
    unfold load_context at h
    rw [Option.map_eq_some'] at h
    obtain ⟨st, hres, hr⟩ := h
    rw [← hr]
    exact resolveVars_prompted_no_input hres
  · intro B B' tmpl fuel fuel' hB
    unfold load_context
    rw [resolveVars_render_indep hB fuel fuel' tmpl.variableList
      { context := [], skipTo := Option.none, prompted := [] }]
  · intro B fuel st st' v h
    rw [processVar_no_input] at h
    rcases hd : DESERIALIZERS v.var_type with _ | d
    · rw [hd] at h
      simp at h
    · rw [hd] at h
      simp only [Option.some_bind] at h
      rcases hdv : d (renderedDefault B st.context v) with _ | dv
      · rw [hdv] at h
        simp at h
      · rw [hdv] at h
        simp only [Option.some_bind, Option.some.injEq] at h
        exact ⟨d, dv, rfl, hdv, by rw [← h]⟩

/-- Witness for C2's amended statement: the concrete non-interactive
run of the single `int` variable leaves the prompt log empty. -/
theorem C2_no_input_amended_witness :
    LoadResult.prompted
      { context := [("n", .int 5), ("_extensions", .none),
          ("_jinja2_env_vars", .none)]
      , prompted := [], warned := false } = [] :=
  C2_no_input_amended.1 B0 { variableList := [intVar5] } 1
    { context := [("n", .int 5), ("_extensions", .none),
        ("_jinja2_env_vars", .none)]
    , prompted := [], warned := false } rfl

/-! ### Claim C7 -/

/-- C7: for a template whose variables declare no `skip_if`, no `do_if`
and no skip-to targets, a completed run produces a context whose keys
are exactly the declared variable names in declaration order (followed
by the two synthesized passthrough keys appended by the post-pass). -/
theorem C7_declared_order :
    ∀ (B : Boundaries) (ni : Bool) (fuel : Nat) (tmpl : Template)
      (r : LoadResult),
    (∀ v ∈ tmpl.variableList, PlainDecl v) →
    (tmpl.variableList.map Variable.name).Nodup →
    "_extensions" ∉ tmpl.variableList.map Variable.name →
    "_jinja2_env_vars" ∉ tmpl.variableList.map Variable.name →
    load_context B tmpl ni fuel = some r →
    r.context.map Prod.fst
      = tmpl.variableList.map Variable.name
          ++ ["_extensions", "_jinja2_env_vars"] := by
  intro B ni fuel tmpl r hplain hnodup hext henv h
  unfold load_context at h
  rw [Option.map_eq_some'] at h
  obtain ⟨st, hres, hr⟩ := h
  obtain ⟨hkeys, _⟩ := resolveVars_plain hplain hnodup
    (by intro v _ hm; simp at hm) rfl hres
  simp only [List.map_nil, List.nil_append] at hkeys
  have hfresh1 : ∀ p ∈ st.context, p.1 ≠ "_extensions" := by
    intro p hp he
    exact hext (hkeys ▸ List.mem_map.mpr ⟨p, hp, he⟩)
  have hkeys1 : (ctxSet st.context "_extensions" tmpl.extensions).map
      Prod.fst = tmpl.variableList.map Variable.name ++ ["_extensions"] := by
    rw [map_fst_ctxSet_fresh hfresh1, hkeys]
  have hfresh2 : ∀ p ∈ ctxSet st.context "_extensions" tmpl.extensions,
      p.1 ≠ "_jinja2_env_vars" := by
    intro p hp he
    have : p.1 ∈ tmpl.variableList.map Variable.name ++ ["_extensions"] :=
      hkeys1 ▸ List.mem_map.mpr ⟨p, hp, rfl⟩
    rcases List.mem_append.mp this with hm | hm
    · exact henv (he ▸ hm)
    · rw [he] at hm
      simp at hm
  rw [← hr]
  simp only []
  rw [map_fst_ctxSet_fresh hfresh2, hkeys1]
  simp

/-- Witness for C7: the two-variable plain template resolves to the
declared key order followed by the passthrough keys. -/
theorem C7_declared_order_witness :
    List.map Prod.fst
        ([("a", PyValue.str "A"), ("b", PyValue.str "B"),
          ("_extensions", PyValue.none), ("_jinja2_env_vars", PyValue.none)]
          : Ctx)
      = ["a", "b"] ++ ["_extensions", "_jinja2_env_vars"] :=
  C7_declared_order B0 true 1
    { variableList := [plainVar "a" "string" (.str "A"),
        plainVar "b" "string" (.str "B")] }
    { context := [("a", .str "A"), ("b", .str "B"),
        ("_extensions", .none), ("_jinja2_env_vars", .none)]
    , prompted := [], warned := false }
    (by simp [PlainDecl, plainVar]) (by decide) (by decide) (by decide) rfl

/-! ### Claim C8 -/

/-- C8: a pending jump target that no later variable matches does not
fail the run — the remaining variables are all skipped, resolution
completes with the accumulated context and `warned = true` (the
non-fatal warning); and in every completed run the two passthrough keys
`_extensions` and `_jinja2_env_vars` are copied from the input document
into the final context unconditionally. -/
theorem C8_unmatched_target :
    (∀ (B : Boundaries) (ni : Bool) (fuel : Nat) (st : RState)
        (t : String) (vs : List Variable),
      st.skipTo = some t → t ≠ "" → (∀ v ∈ vs, v.name ≠ t) →
      resolveVars B ni fuel st vs = some st) ∧
    (∀ (B : Boundaries) (ni : Bool) (fuel : Nat) (tmpl : Template)
        (st : RState),
      resolveVars B ni fuel
          { context := [], skipTo := Option.none, prompted := [] }
          tmpl.variableList = some st →
      truthyOptStr st.skipTo = true →
      load_context B tmpl ni fuel
        = some (LoadResult.mk
            (ctxSet (ctxSet st.context "_extensions" tmpl.extensions)
              "_jinja2_env_vars" tmpl.jinja2_env_vars)
            st.prompted true)) ∧
    (∀ (B : Boundaries) (ni : Bool) (fuel : Nat) (tmpl : Template)
        (r : LoadResult),
      load_context B tmpl ni fuel = some r →
      r.context.lookup "_extensions" = some tmpl.extensions
        ∧ r.context.lookup "_jinja2_env_vars"
            = some tmpl.jinja2_env_vars) := by
  refine ⟨?_, ?_, ?_⟩
  · intro B ni fuel st t vs h1 h2 h3
    exact resolveVars_pending h2 vs st h1 h3
  · intro B ni fuel tmpl st hres hw
    unfold load_context
    rw [hres]
    simp only [Option.map_some', hw]
  · intro B ni fuel tmpl r h
    unfold load_context at h
    rw [Option.map_eq_some'] at h
    obtain ⟨st, _, hr⟩ := h
    rw [← hr]
    refine ⟨?_, ?_⟩
    · rw [lookup_ctxSet_ne (by decide), lookup_ctxSet_self]
    · rw [lookup_ctxSet_self]

/-- Witness for C8: resolving a template whose only variable jumps to a
target `"X"` that does not exist completes with the accumulated context
and the warning flag set. -/
theorem C8_unmatched_target_witness :
    load_context B0 { variableList := [yesVarX] } true 1
      = some (LoadResult.mk
          (ctxSet (ctxSet [("go", PyValue.bool true)] "_extensions"
            PyValue.none) "_jinja2_env_vars" PyValue.none)
          [] true) :=
  C8_unmatched_target.2.1 B0 true 1 { variableList := [yesVarX] }
    { context := [("go", .bool true)], skipTo := some "X", prompted := [] }
    rfl rfl

/-! ### Claim C1 -/

/-- The step taken on a processed `yes_no` variable in non-interactive
mode whose (boolean) default is `True` and whose `if_yes_skip_to` is a
non-empty target: the truthy value is stored and the pending jump target
is set. -/
theorem step_yes_trigger {B : Boundaries} {fuel : Nat} {st : RState}
    {v : Variable} {t : String} (hsk : st.skipTo = Option.none)
    (h1 : v.skip_if = "") (h2 : v.do_if = "") (hty : v.var_type = "yes_no")
    (hdef : v.default = .bool true) (hyes : v.if_yes_skip_to = some t)
    (ht : t ≠ "") :
    step B true fuel st v
      = some { context := ctxSet st.context v.name (.bool true)
             , skipTo := some t, prompted := st.prompted } := by
  rw [step_skipTo_none hsk, afterPending_plain h1 h2, processVar_no_input]
  rw [hty]
  simp [DESERIALIZERS, renderedDefault, hdef, deserialize_yes_no, pyTruthy,
    nextSkipTo, hyes, truthyOptStr, ht, isPyTrue]

/-- C1: (i) while a non-empty jump target is pending and a variable's
name does not match it, the step leaves the whole state unchanged for
every boundary assignment (so `skip_if`/`do_if` are not evaluated, no
prompt occurs and the context is untouched) and the pending target
survives; (ii) hence a block of such variables contributes nothing;
(iii) on the first name match the pending target is cleared and the
step is exactly the normal (no-pending) processing of that variable;
(iv) a `yes_no` variable resolving `True` with `if_yes_skip_to = t` sets
the pending target to `t`; (v) end to end, a run over
`V :: mid ++ X :: post` where `V` resolves yes with target `X` and no
variable of `mid` is named `X` equals the run that stores `V`'s value,
omits all of `mid`, and continues with `X` processed normally. -/
theorem C1_yes_no_skip_jump :
    (∀ (B : Boundaries) (ni : Bool) (fuel : Nat) (st : RState)
        (v : Variable) (t : String),
      st.skipTo = some t → t ≠ "" → v.name ≠ t →
      step B ni fuel st v = some st) ∧
    (∀ (B : Boundaries) (ni : Bool) (fuel : Nat) (st : RState)
        (t : String) (vs : List Variable),
      st.skipTo = some t → t ≠ "" → (∀ v ∈ vs, v.name ≠ t) →
      resolveVars B ni fuel st vs = some st) ∧
    (∀ (B : Boundaries) (ni : Bool) (fuel : Nat) (st : RState)
        (v : Variable) (t : String),
      st.skipTo = some t → v.name = t →
      step B ni fuel st v
        = afterPending B ni fuel { st with skipTo := Option.none } v) ∧
    (∀ (B : Boundaries) (fuel : Nat) (st : RState) (v : Variable)
        (t : String),
      st.skipTo = Option.none → v.skip_if = "" → v.do_if = "" →
      v.var_type = "yes_no" → v.default = .bool true →
      v.if_yes_skip_to = some t → t ≠ "" →
      step B true fuel st v
        = some { context := ctxSet st.context v.name (.bool true)
               , skipTo := some t, prompted := st.prompted }) ∧
    (∀ (B : Boundaries) (fuel : Nat) (st : RState) (v X : Variable)
        (t : String) (mid post : List Variable),
      st.skipTo = Option.none → v.skip_if = "" → v.do_if = "" →
      v.var_type = "yes_no" → v.default = .bool true →
      v.if_yes_skip_to = some t → t ≠ "" →
      (∀ u ∈ mid, u.name ≠ t) → X.name = t →
      resolveVars B true fuel st (v :: (mid ++ X :: post))
        = (afterPending B true fuel
            { context := ctxSet st.context v.name (.bool true)
            , skipTo := Option.none, prompted := st.prompted } X).bind
            fun st' => resolveVars B true fuel st' post) := by
  refine ⟨?_, ?_, ?_, ?_, ?_⟩
  · intro B ni fuel st v t h1 h2 h3
    exact step_pending_skip h1 h2 h3
  · intro B ni fuel st t vs h1 h2 h3
    exact resolveVars_pending h2 vs st h1 h3
  · intro B ni fuel st v t h1 h2
    exact step_pending_match h1 h2
  · intro B fuel st v t hsk h1 h2 hty hdef hyes ht
    exact step_yes_trigger hsk h1 h2 hty hdef hyes ht
  · intro B fuel st v X t mid post hsk h1 h2 hty hdef hyes ht hmid hX
    rw [resolveVars_cons, step_yes_trigger hsk h1 h2 hty hdef hyes ht]
    simp only [Option.some_bind]
    rw [resolveVars_append]
    rw [resolveVars_pending ht mid _ rfl hmid]
    simp only [Option.some_bind]
    rw [resolveVars_cons, step_pending_match rfl hX]

/-- Witness for C1: in the concrete run
`[go (yes -> X), a, X, c]` the variable `a` is omitted, `go` stores
`True` with pending target `"X"`, and the walk resumes with `X`
processed normally. -/
theorem C1_yes_no_skip_jump_witness :
    resolveVars B0 true 1 initState
        (yesVarX :: ([plainVar "a" "string" (.str "A")]
          ++ plainVar "X" "string" (.str "x")
            :: [plainVar "c" "string" (.str "C")]))
      = (afterPending B0 true 1
          { context := ctxSet [] "go" (.bool true)
          , skipTo := Option.none, prompted := [] }
          (plainVar "X" "string" (.str "x"))).bind
          fun st' => resolveVars B0 true 1 st'
            [plainVar "c" "string" (.str "C")] :=
  C1_yes_no_skip_jump.2.2.2.2 B0 1 initState yesVarX
    (plainVar "X" "string" (.str "x")) "X"
    [plainVar "a" "string" (.str "A")] [plainVar "c" "string" (.str "C")]
    rfl rfl rfl rfl rfl rfl (by decide) (by decide) rfl

end Cookiecutter
